import Mathlib

/-!
Shallow embedding of the saturncli job-invocation layer (Go), covering:

* the server-side job registry, run tracker and request router
  (server/job_manager: Registry, AddJob, AddStoppableJob, registerJob,
  trackStoppable, untrackStoppable, stopSpecific, stopAll, safeCloseQuit,
  ServeHTTP, runJob, stopJob, isClosed), and
* the client invoker (client/client_manager.go: Task, Run, queryString,
  buildURLForHost) together with the CLI result mapping (client/cmd.go).

Modelling conventions:

* Go channels of type chan struct arising as cancellation handles are
  modelled by identifiers (Nat) allocated from a ChanHeap; closing a channel
  records its id in the closed set.  Closing an already-closed channel
  panics in Go; the panicking primitive is closeChanP (returning none on
  panic) and safeCloseQuit is proved never to hit that case.
* Go maps and sync.Map values are modelled as association lists with
  store/erase/lookup operations matching Store, Delete, LoadAndDelete and
  indexing.  Keys stay unique because store replaces an existing binding.
* A stoppable handler runs concurrently with stop requests that may close
  its quit channel and mutate the run table.  The handler invocation is
  therefore embedded as a big-step function from the state at call time
  (registry, heap, quit id) to the state at return time plus an ExecResult
  (normal boolean return, or a panic that unwinds to the router).
* The nondeterministic outcome of the client-side race between the network
  response and the OS-signal listener is resolved by an explicit
  RaceOutcome oracle.
-/

set_option autoImplicit false

namespace Saturn

/-! ## Result tokens and header names (base package) -/

def SUCCESS : String := "success"
def INTERRUPT : String := "interrupt"
def FAILURE : String := "failure"

/-! ## Association lists standing for Go maps and sync.Map -/

/-- Lookup of a key in an association list (Go map indexing / sync.Map Load). -/
def lookupAssoc {α : Type} (l : List (String × α)) (k : String) : Option α :=
  match l with
  | [] => none
  | (k', v) :: rest => if k' = k then some v else lookupAssoc rest k

/-- Key-membership test for an association list. -/
def containsKey {α : Type} (l : List (String × α)) (k : String) : Bool :=
  (lookupAssoc l k).isSome

/-- Store a binding, replacing an existing one for the same key
(Go map assignment / sync.Map Store / url.Values Set). -/
def storeAssoc {α : Type} (l : List (String × α)) (k : String) (v : α) :
    List (String × α) :=
  match l with
  | [] => [(k, v)]
  | (k', v') :: rest =>
    if k' = k then (k, v) :: rest else (k', v') :: storeAssoc rest k v

/-- Remove every binding for a key (Go map delete / sync.Map Delete). -/
def eraseAssoc {α : Type} (l : List (String × α)) (k : String) :
    List (String × α) :=
  l.filter (fun p => p.1 ≠ k)

/-! ## Cancellation channels -/

/-- Heap of cancellation channels: next fresh id and the set of closed ids. -/
structure ChanHeap where
  next : Nat
  closed : List Nat
  deriving Repr, DecidableEq

def emptyHeap : ChanHeap := ⟨0, []⟩

/-- Allocate a fresh channel (make chan struct); the new id is heap.next. -/
def allocChan (h : ChanHeap) : ChanHeap := { h with next := h.next + 1 }

/-- Non-blocking closed test on a channel (the select with default in
isClosed, and the same select inside safeCloseQuit). -/
def isClosedChan (h : ChanHeap) (c : Nat) : Bool := decide (c ∈ h.closed)

/-- Primitive close. Go panics when closing an already-closed channel;
that panic is modelled as the value none. -/
def closeChanP (c : Nat) (h : ChanHeap) : Option ChanHeap :=
  if isClosedChan h c then none else some { h with closed := c :: h.closed }

/-- Faithful safeCloseQuit including the possibility of a close panic:
nil channel returns false; an already-closed channel is detected by the
select and returns false; otherwise the channel is closed.  The outer
Option is none exactly when the underlying close would panic. -/
def safeCloseQuitP (quit : Option Nat) (h : ChanHeap) :
    Option (ChanHeap × Bool) :=
  match quit with
  | none => some (h, false)
  | some c =>
    if isClosedChan h c then some (h, false)
    else
      match closeChanP c h with
      | none => none
      | some h' => some (h', true)

/-- Total version of safeCloseQuit used by the rest of the model; it agrees
with safeCloseQuitP everywhere (theorem safeCloseQuitP_eq below). -/
def safeCloseQuit (quit : Option Nat) (h : ChanHeap) : ChanHeap × Bool :=
  match quit with
  | none => (h, false)
  | some c =>
    if isClosedChan h c then (h, false)
    else ({ h with closed := c :: h.closed }, true)

/-! ## Jobs and the registry -/

/-- Outcome of one handler invocation: a normal boolean return, or a panic
that unwinds to the recover in ServeHTTP. -/
inductive ExecResult where
  | ret (b : Bool)
  | panicked
  deriving Repr, DecidableEq

/-- A plain JobHandler: parameters and run-signature to an outcome. -/
def PlainHandler : Type := List (String × String) → String → ExecResult

/-- The per-job-name run tables: job name to run table, each run table
mapping run-signature to the quit channel id of the in-flight invocation. -/
abbrev RunningTables : Type := List (String × List (String × Nat))

/-- A stoppable handler invocation, sequentialised: it receives the request
parameters, the run-signature, the quit channel id and the mutable world at
call time (the run tables and the channel heap, which concurrent stop
requests may mutate while it runs), and yields the world at return time
together with its ExecResult.  Concurrent activity never mutates the jobs
map of a registry, so the jobs map is not part of the handler world. -/
def StoppableHandler : Type :=
  List (String × String) → String → Nat → RunningTables → ChanHeap →
    RunningTables × ChanHeap × ExecResult

/-- A registered job: name plus at most one handler of each kind
(notifyJob in the source). -/
structure NotifyJob where
  name : String
  handler : Option PlainHandler
  stoppable : Option StoppableHandler

/-- The pure data of a Registry: the name-to-job map and the run tables. -/
structure RegistryState where
  jobs : List (String × NotifyJob)
  running : RunningTables

def emptyRegistry : RegistryState := ⟨[], []⟩

/-- isStoppable on a possibly nil job pointer: j is not nil and has a
stoppable handler. -/
def isStoppable (j : Option NotifyJob) : Bool :=
  match j with
  | none => false
  | some job => job.stoppable.isSome

/-! ## Registration (AddJob, AddStoppableJob, registerJob, getJob) -/

/-- Go strings.TrimSpace followed by the emptiness test of registerJob.
Only blank-versus-nonblank matters downstream, so the test is whether every
character is whitespace. -/
def isBlankName (s : String) : Bool :=
  s.toList.all Char.isWhitespace

/-- registerJob: reject a nil job or a blank name, reject a duplicate name,
otherwise insert the job.  Returns the new state and an error message when
registration fails. -/
def registerJob (r : RegistryState) (job : Option NotifyJob) :
    RegistryState × Option String :=
  match job with
  | none => (r, some "job name is empty")
  | some j =>
    if isBlankName j.name then (r, some "job name is empty")
    else if containsKey r.jobs j.name then (r, some "the job is already exist")
    else ({ r with jobs := r.jobs ++ [(j.name, j)] }, none)

/-- getJob: registry lookup by name. -/
def getJob (r : RegistryState) (name : String) : Option NotifyJob :=
  lookupAssoc r.jobs name

/-- ensureRunningMap: allocate an empty run table for a name when absent. -/
def ensureRunningMap (r : RegistryState) (name : String) : RegistryState :=
  if containsKey r.running name then r
  else { r with running := r.running ++ [(name, [])] }

/-- AddJob: register a plain (non-stoppable) job; nil handler is refused. -/
def addJob (r : RegistryState) (name : String) (h : Option PlainHandler) :
    RegistryState × Option String :=
  match h with
  | none => (r, some "handler is nil")
  | some handler => registerJob r (some ⟨name, some handler, none⟩)

/-- AddStoppableJob: ensure the run table exists, then register a stoppable
job; nil handler is refused.  Note the run-table allocation happens before
the duplicate-name check inside registerJob. -/
def addStoppableJob (r : RegistryState) (name : String)
    (h : Option StoppableHandler) : RegistryState × Option String :=
  match h with
  | none => (r, some "handler is nil")
  | some handler =>
    let r1 := ensureRunningMap r name
    registerJob r1 (some ⟨name, none, some handler⟩)

/-! ## Run tracker (trackStoppable, untrackStoppable, stopSpecific, stopAll) -/

/-- runningMap: fetch the run table registered for a job name, if any. -/
def runningMap (running : RunningTables) (name : String) :
    Option (List (String × Nat)) :=
  lookupAssoc running name

/-- Lookup of the quit channel tracked for a job name and run-signature. -/
def lookupRun (running : RunningTables) (name sig : String) : Option Nat :=
  match runningMap running name with
  | none => none
  | some table => lookupAssoc table sig

/-- trackStoppable: record the quit channel for a running invocation; no-op
when the signature is empty, the channel is nil, or the job has no run
table. -/
def trackStoppable (running : RunningTables) (jobName sig : String)
    (quit : Option Nat) : RunningTables :=
  if sig = "" then running
  else
    match quit with
    | none => running
    | some q =>
      match runningMap running jobName with
      | none => running
      | some table => storeAssoc running jobName (storeAssoc table sig q)

/-- untrackStoppable: drop the entry for a run-signature; no-op when the
signature is empty or the job has no run table. -/
def untrackStoppable (running : RunningTables) (jobName sig : String) :
    RunningTables :=
  if sig = "" then running
  else
    match runningMap running jobName with
    | none => running
    | some table => storeAssoc running jobName (eraseAssoc table sig)

/-- stopSpecific: LoadAndDelete the entry for the signature; when found,
safe-close its quit channel and report true regardless of whether the close
actually happened. -/
def stopSpecific (running : RunningTables) (h : ChanHeap)
    (jobName sig : String) : RunningTables × ChanHeap × Bool :=
  if sig = "" then (running, h, false)
  else
    match runningMap running jobName with
    | none => (running, h, false)
    | some table =>
      match lookupAssoc table sig with
      | none => (running, h, false)
      | some q =>
        let h' := (safeCloseQuit (some q) h).1
        (storeAssoc running jobName (eraseAssoc table sig), h', true)

/-- One step of the stopAll range: safe-close a tracked channel and fold
whether any close succeeded. -/
def stopAllStep (acc : ChanHeap × Bool) (entry : String × Nat) :
    ChanHeap × Bool :=
  let (h', closedNow) := safeCloseQuit (some entry.2) acc.1
  (h', acc.2 || closedNow)

/-- stopAll: range over the run table deleting every entry and safe-closing
every tracked channel; report true when at least one close succeeded. -/
def stopAll (running : RunningTables) (h : ChanHeap) (jobName : String) :
    RunningTables × ChanHeap × Bool :=
  match runningMap running jobName with
  | none => (running, h, false)
  | some table =>
    let (h', stopped) := table.foldl stopAllStep (h, false)
    (storeAssoc running jobName [], h', stopped)

/-! ## Execution engine and router (runJob, stopJob, ServeHTTP) -/

/-- Run-signature selection in runJob: the caller-supplied header wins; else
the generated uuid when generation succeeded; else the sentinel cron. -/
def chooseSig (headerSig : String) (uuid : Option String) : String :=
  let sig := if headerSig = "" then uuid.getD "" else headerSig
  if sig = "" then "cron" else sig

/-- Request parameter extraction: first value of every non-empty query key. -/
def firstValues (query : List (String × List String)) :
    List (String × String) :=
  query.foldl
    (fun acc p => match p.2 with
      | [] => acc
      | v :: _ => storeAssoc acc p.1 v)
    []

/-- runJob: dispatch on the handler kind.  A plain handler yields SUCCESS or
FAILURE from its boolean.  A stoppable handler is tracked under a fresh quit
channel before the call and untracked on every exit path (the deferred
untrack); if the quit channel is closed by the time it returns the response
is INTERRUPT regardless of the boolean.  A job with no handler yields
FAILURE.  The response component is none exactly when the handler panicked,
in which case nothing is written and the panic unwinds to ServeHTTP. -/
def runJob (r : RegistryState) (h : ChanHeap) (job : NotifyJob)
    (query : List (String × List String)) (headerSig : String)
    (uuid : Option String) : RegistryState × ChanHeap × Option String :=
  let args := firstValues query
  let sig := chooseSig headerSig uuid
  match job.handler, job.stoppable with
  | some handler, _ =>
    match handler args sig with
    | .panicked => (r, h, none)
    | .ret b => (r, h, some (if b then SUCCESS else FAILURE))
  | none, some stoppable =>
    let quit := h.next
    let h1 := allocChan h
    let running1 := trackStoppable r.running job.name sig (some quit)
    let (running2, h2, res) := stoppable args sig quit running1 h1
    let running3 := untrackStoppable running2 job.name sig
    let r' := { r with running := running3 }
    match res with
    | .panicked => (r', h2, none)
    | .ret b =>
      if isClosedChan h2 quit then (r', h2, some INTERRUPT)
      else (r', h2, some (if b then SUCCESS else FAILURE))
  | none, none => (r, h, some FAILURE)

/-- stopJob: a nil or non-stoppable job fails outright; otherwise a supplied
target signature selects stopSpecific and an empty one selects stopAll, and
the response is SUCCESS exactly when the chosen call reported true. -/
def stopJob (r : RegistryState) (h : ChanHeap) (job : Option NotifyJob)
    (stopSig : String) : RegistryState × ChanHeap × String :=
  if !(isStoppable job) then (r, h, FAILURE)
  else
    match job with
    | none => (r, h, FAILURE)
    | some j =>
      let (running', h', ok) :=
        if stopSig ≠ "" then stopSpecific r.running h j.name stopSig
        else stopAll r.running h j.name
      ({ r with running := running' }, h', if ok then SUCCESS else FAILURE)

/-- Strip one leading slash from the request path (strings.TrimPrefix). -/
def stripLeadingSlash (path : String) : String :=
  match path.toList with
  | '/' :: rest => String.mk rest
  | _ => path

/-- ServeHTTP: resolve the job name from the path; dispatch to stopJob when
the stop flag header is set, else to runJob; an unknown name answers the
literal body not exist.  The recover at the top of ServeHTTP turns a handler
panic into an empty response (body component none) instead of a crash. -/
def serveHTTP (r : RegistryState) (h : ChanHeap) (path : String)
    (stopFlag : Bool) (stopSig headerSig : String)
    (query : List (String × List String)) (uuid : Option String) :
    RegistryState × ChanHeap × Option String :=
  let name := stripLeadingSlash path
  match getJob r name with
  | some job =>
    if stopFlag then
      let (r', h', body) := stopJob r h (some job) stopSig
      (r', h', some body)
    else runJob r h job query headerSig uuid
  | none => (r, h, some "not exist")

/-! ## Client side: query parsing (net/url ParseQuery as used by queryString) -/

/-- Hex digit value, as ishex plus unhex in net/url. -/
def hexDigitVal (c : Char) : Option Nat :=
  if '0' ≤ c ∧ c ≤ '9' then some (c.toNat - '0'.toNat)
  else if 'a' ≤ c ∧ c ≤ 'f' then some (c.toNat - 'a'.toNat + 10)
  else if 'A' ≤ c ∧ c ≤ 'F' then some (c.toNat - 'A'.toNat + 10)
  else none

/-- QueryUnescape on a character list: a percent sign must be followed by
two hex digits (else the escape error), and plus decodes to a space.
Decoded bytes are represented as characters, which is faithful on the ASCII
inputs the claims use. -/
def queryUnescapeList : List Char → Option (List Char)
  | [] => some []
  | '%' :: a :: b :: rest =>
    match hexDigitVal a, hexDigitVal b with
    | some x, some y =>
      (queryUnescapeList rest).map (fun t => Char.ofNat (16 * x + y) :: t)
    | _, _ => none
  | '%' :: _ => none
  | '+' :: rest => (queryUnescapeList rest).map (fun t => ' ' :: t)
  | c :: rest => (queryUnescapeList rest).map (fun t => c :: t)

/-- Append a decoded key/value pair, keeping insertion order per key
(the m[key] = append(m[key], value) step of parseQuery). -/
def appendValue (m : List (String × List String)) (k v : String) :
    List (String × List String) :=
  match lookupAssoc m k with
  | none => m ++ [(k, [v])]
  | some vs => storeAssoc m k (vs ++ [v])

/-- One segment of parseQuery: a semicolon anywhere is an error (recorded
unconditionally), an empty segment is skipped, otherwise the segment is cut
at the first equals sign and both halves unescaped; an unescape failure
records an error only when none is pending. -/
def parseQueryStep (acc : List (String × List String) × Option String)
    (seg : List Char) : List (String × List String) × Option String :=
  let (m, err) := acc
  if seg.contains ';' then (m, some "invalid semicolon separator in query")
  else if seg.isEmpty then (m, err)
  else
    let key := seg.takeWhile (fun c => c ≠ '=')
    let val := (seg.dropWhile (fun c => c ≠ '=')).drop 1
    match queryUnescapeList key with
    | none => (m, err <|> some "invalid URL escape")
    | some k =>
      match queryUnescapeList val with
      | none => (m, err <|> some "invalid URL escape")
      | some v => (appendValue m (String.mk k) (String.mk v), err)

/-- Split a character list at every ampersand, keeping empty segments, as
the iterated strings.Cut of parseQuery does. -/
def splitAmp : List Char → List (List Char)
  | [] => [[]]
  | c :: rest =>
    if c = '&' then [] :: splitAmp rest
    else
      match splitAmp rest with
      | [] => [[c]]
      | seg :: segs => (c :: seg) :: segs

/-- ParseQuery: split the query on ampersands, process every segment, and
fail when any segment recorded an error (the partially built map that Go
also returns is discarded by queryString on error). -/
def parseQuery (s : String) : Except String (List (String × List String)) :=
  let segs := splitAmp s.toList
  let (m, err) := segs.foldl parseQueryStep ([], none)
  match err with
  | some e => .error e
  | none => .ok m

/-! ## Client side: Task and the queryString merge -/

/-- Task: the client-side request descriptor. -/
structure Task where
  Name : String
  Args : String
  Params : List (String × String)
  Stop : Bool
  Signature : String

/-- The url.Values built from the structured Params: Set of every pair. -/
def valuesOfParams (ps : List (String × String)) :
    List (String × List String) :=
  ps.foldl (fun vs p => storeAssoc vs p.1 [p.2]) []

/-- Strip one leading question mark from the legacy Args string. -/
def dropQMark (s : String) : String :=
  match s.toList with
  | '?' :: rest => String.mk rest
  | _ => s

/-- The overlay loop of queryString: each parsed legacy key contributes its
first value only when it has one and the key is not already present in the
structured values. -/
def mergeParsed (values : List (String × List String))
    (parsed : List (String × List String)) : List (String × List String) :=
  parsed.foldl
    (fun vs p =>
      match p.2 with
      | [] => vs
      | v :: _ => if containsKey vs p.1 then vs else storeAssoc vs p.1 [v])
    values

/-- queryString up to the final Encode: build values from Params, parse the
legacy Args (unless empty after stripping a question mark) and overlay it.
The Encode step only serialises the resulting value set and is elided. -/
def queryValues (args : String) (params : List (String × String)) :
    Except String (List (String × List String)) :=
  let values := valuesOfParams params
  let raw := dropQMark args
  if raw = "" then .ok values
  else
    match parseQuery raw with
    | .error e => .error ("invalid args: " ++ e)
    | .ok parsed => .ok (mergeParsed values parsed)

/-- buildURL reduced to its fallible part: buildURLForHost rejects a blank
task name, then computes the query via queryString; the URL assembly itself
(scheme, host, escaped path) always succeeds and is elided. -/
def buildURLQuery (t : Task) : Except String (List (String × List String)) :=
  if isBlankName t.Name then .error "task name is empty"
  else queryValues t.Args t.Params

/-! ## Client side: Run and the signal race -/

/-- Which of the two racing events inside Run fires first: the network call
completing (with a transport-or-body-read error, or a body), a non-nil OS
signal, or a nil value from the signal channel after which the network
result is awaited as usual. -/
inductive RaceOutcome where
  | networkFirst (resp : Except Unit String)
  | signalFirst
  | signalNil (resp : Except Unit String)

/-- Oracle inputs of one Run invocation: the outcome of uuid generation for
the run-signature, and the resolution of the race. -/
structure RunEnv where
  uuid : Option String
  race : RaceOutcome

/-- Observable trace of one Run invocation: the returned result string,
whether the request was handed to the HTTP client, and whether the
best-effort stop call was fired from the signal branch. -/
structure RunTrace where
  result : String
  networkIssued : Bool
  stopCalled : Bool
  deriving Repr, DecidableEq

/-- Run: nil task and empty name fail immediately; a buildURL failure fails
before any network activity; otherwise the request is issued and the signal
race decides the outcome.  On a non-nil signal the stop call fires exactly
when this was not itself a stop request and a run-signature was generated,
and the result is INTERRUPT unconditionally; otherwise the result is the
response body, or FAILURE on a transport or body-read error. -/
def clientRun (task : Option Task) (env : RunEnv) : RunTrace :=
  match task with
  | none => ⟨FAILURE, false, false⟩
  | some t =>
    if t.Name = "" then ⟨FAILURE, false, false⟩
    else
      match buildURLQuery t with
      | .error _ => ⟨FAILURE, false, false⟩
      | .ok _ =>
        let runSignature := env.uuid.getD ""
        match env.race with
        | .networkFirst resp =>
          match resp with
          | .error _ => ⟨FAILURE, true, false⟩
          | .ok body => ⟨body, true, false⟩
        | .signalFirst =>
          ⟨INTERRUPT, true, !t.Stop && runSignature ≠ ""⟩
        | .signalNil resp =>
          match resp with
          | .error _ => ⟨FAILURE, true, false⟩
          | .ok body => ⟨body, true, false⟩

/-- The CLI mapping of a Run result (the switch in cmd RunWithArgs): the
message printed and whether the process exits nonzero.  Every token other
than SUCCESS and INTERRUPT falls to the failure branch. -/
def cmdReport (result : String) : String × Bool :=
  if result = SUCCESS then ("Execution Success", false)
  else if result = INTERRUPT then ("Execution Interrupted", false)
  else ("Execution Failure", true)

/-! ## Sample handlers used for concrete instances -/

/-- A plain handler returning a fixed boolean. -/
def sampleRet (b : Bool) : PlainHandler := fun _ _ => .ret b

/-- A stoppable handler that returns true without touching the world. -/
def sampleStoppable : StoppableHandler := fun _ _ _ rt hh => (rt, hh, .ret true)

/-- A stoppable handler whose invocation ends with its quit channel closed
(a stop request arrived while it ran) and that then returns true. -/
def sampleClosing : StoppableHandler :=
  fun _ _ q rt hh => (rt, ⟨hh.next, q :: hh.closed⟩, .ret true)

/-! ## Helper lemmas on the association-list primitives -/

theorem lookupAssoc_storeAssoc_self {α : Type} (l : List (String × α))
    (k : String) (v : α) : lookupAssoc (storeAssoc l k v) k = some v := by
  induction l with
  | nil => simp [storeAssoc, lookupAssoc]
  | cons p rest ih =>
    obtain ⟨k', v'⟩ := p
    by_cases hp : k' = k
    · simp [storeAssoc, hp, lookupAssoc]
    · simp [storeAssoc, hp, lookupAssoc, ih]

theorem lookupAssoc_storeAssoc_ne {α : Type} (l : List (String × α))
    (k k' : String) (v : α) (hk : k' ≠ k) :
    lookupAssoc (storeAssoc l k v) k' = lookupAssoc l k' := by
  induction l with
  | nil => simp [storeAssoc, lookupAssoc, Ne.symm hk]
  | cons p rest ih =>
    obtain ⟨k₀, v₀⟩ := p
    by_cases hp : k₀ = k
    · subst hp
      simp [storeAssoc, lookupAssoc, Ne.symm hk]
    · simp [storeAssoc, hp, lookupAssoc, ih]

theorem lookupAssoc_eraseAssoc_self {α : Type} (l : List (String × α))
    (k : String) : lookupAssoc (eraseAssoc l k) k = none := by
  induction l with
  | nil => simp [eraseAssoc, lookupAssoc]
  | cons p rest ih =>
    obtain ⟨k', v'⟩ := p
    by_cases hp : k' = k
    · simpa [eraseAssoc, hp] using ih
    · simpa [eraseAssoc, lookupAssoc, hp] using ih

/-! ## Helper lemmas on the run tracker -/

theorem chooseSig_ne_empty (headerSig : String) (uuid : Option String) :
    chooseSig headerSig uuid ≠ "" := by
  simp only [chooseSig]
  by_cases h1 : (if headerSig = "" then uuid.getD "" else headerSig) = ""
  · rw [if_pos h1]
    decide
  · rw [if_neg h1]
    exact h1

theorem lookupRun_untrack_self (running : RunningTables) (name sig : String)
    (hsig : sig ≠ "") :
    lookupRun (untrackStoppable running name sig) name sig = none := by
  unfold untrackStoppable
  rw [if_neg hsig]
  cases htab : runningMap running name with
  | none => simp [lookupRun, htab]
  | some table =>
    simp [lookupRun, runningMap, lookupAssoc_storeAssoc_self,
      lookupAssoc_eraseAssoc_self]

theorem stopSpecific_not_found (running : RunningTables) (h : ChanHeap)
    (name sig : String) (hmiss : lookupRun running name sig = none) :
    (stopSpecific running h name sig).2.2 = false := by
  unfold stopSpecific
  by_cases hsig : sig = ""
  · simp [hsig]
  · rw [if_neg hsig]
    cases htab : runningMap running name with
    | none => simp
    | some table =>
      have hl : lookupAssoc table sig = none := by
        simpa [lookupRun, htab] using hmiss
      simp [hl]

/-! ## Helper lemmas on safeCloseQuit and the stopAll fold -/

theorem isClosedChan_safeCloseQuit_mono (q : Option Nat) (h : ChanHeap)
    (c : Nat) (hc : isClosedChan h c = true) :
    isClosedChan (safeCloseQuit q h).1 c = true := by
  cases q with
  | none => simpa [safeCloseQuit] using hc
  | some c' =>
    by_cases hc' : isClosedChan h c'
    · simpa [safeCloseQuit, hc'] using hc
    · simp only [safeCloseQuit, hc', if_false, Bool.false_eq_true]
      simp only [isClosedChan, decide_eq_true_eq] at hc ⊢
      exact List.mem_cons_of_mem _ hc

theorem isClosedChan_safeCloseQuit_self (h : ChanHeap) (c : Nat) :
    isClosedChan (safeCloseQuit (some c) h).1 c = true := by
  by_cases hc : isClosedChan h c
  · rw [safeCloseQuit, if_pos hc]
    exact hc
  · simp only [safeCloseQuit, hc, if_false, Bool.false_eq_true]
    simp [isClosedChan]

theorem stopAllStep_eq (acc : ChanHeap × Bool) (e : String × Nat) :
    stopAllStep acc e =
      ((safeCloseQuit (some e.2) acc.1).1,
        acc.2 || (safeCloseQuit (some e.2) acc.1).2) := by
  unfold stopAllStep
  rcases hs : safeCloseQuit (some e.2) acc.1 with ⟨h', b⟩
  simp [hs]

theorem stopAllFold_mono (table : List (String × Nat)) (h : ChanHeap)
    (f : Bool) (c : Nat) (hc : isClosedChan h c = true) :
    isClosedChan (table.foldl stopAllStep (h, f)).1 c = true := by
  induction table generalizing h f with
  | nil => simpa using hc
  | cons e rest ih =>
    simp only [List.foldl_cons, stopAllStep_eq]
    exact ih _ _ (isClosedChan_safeCloseQuit_mono _ _ _ hc)

theorem stopAllFold_closes (table : List (String × Nat)) (h : ChanHeap)
    (f : Bool) (c : Nat) (hc : c ∈ table.map Prod.snd) :
    isClosedChan (table.foldl stopAllStep (h, f)).1 c = true := by
  induction table generalizing h f with
  | nil => simp at hc
  | cons e rest ih =>
    simp only [List.map_cons, List.mem_cons] at hc
    simp only [List.foldl_cons, stopAllStep_eq]
    rcases hc with hc | hc
    · subst hc
      exact stopAllFold_mono rest _ _ _ (isClosedChan_safeCloseQuit_self h e.2)
    · exact ih _ _ hc

theorem stopAllFold_flag_true (table : List (String × Nat)) (h : ChanHeap) :
    (table.foldl stopAllStep (h, true)).2 = true := by
  induction table generalizing h with
  | nil => rfl
  | cons e rest ih =>
    simp only [List.foldl_cons, stopAllStep_eq, Bool.true_or]
    exact ih _

theorem stopAllFold_flag (table : List (String × Nat)) (h : ChanHeap)
    (hopen : ∀ q ∈ table.map Prod.snd, isClosedChan h q = false) :
    (table.foldl stopAllStep (h, false)).2 = !table.isEmpty := by
  cases table with
  | nil => rfl
  | cons e rest =>
    have he : isClosedChan h e.2 = false := hopen e.2 (by simp)
    simp only [List.foldl_cons, stopAllStep_eq, safeCloseQuit, he, if_false,
      Bool.false_eq_true, Bool.false_or, List.isEmpty_cons, Bool.not_false]
    exact stopAllFold_flag_true rest _

/-! ## Helper lemma on the queryString merge -/

theorem lookupAssoc_mergeParsed (vs parsed : List (String × List String))
    (k : String) (hk : containsKey vs k = true) :
    lookupAssoc (mergeParsed vs parsed) k = lookupAssoc vs k := by
  induction parsed generalizing vs with
  | nil => rfl
  | cons p rest ih =>
    simp only [mergeParsed, List.foldl_cons] at ih ⊢
    cases hv : p.2 with
    | nil => simp only [hv]; exact ih vs hk
    | cons v vtail =>
      simp only [hv]
      by_cases hc : containsKey vs p.1
      · simp only [hc, if_true]
        exact ih vs hk
      · have hne : p.1 ≠ k := fun he => hc (he ▸ hk)
        simp only [hc, Bool.false_eq_true, if_false]
        have h1 : containsKey (storeAssoc vs p.1 [v]) k = true := by
          simpa [containsKey, lookupAssoc_storeAssoc_ne vs p.1 k [v]
            (Ne.symm hne)] using hk
        rw [ih _ h1]
        exact lookupAssoc_storeAssoc_ne vs p.1 k [v] (Ne.symm hne)

/-! ## Claim theorems -/

/-- C1: for every invocation of a cancellable job whose handler returns
normally with boolean b, the response written by runJob is INTERRUPT when
the quit channel is closed by the time the handler returns, regardless of
b, and otherwise SUCCESS exactly when b is true and FAILURE otherwise. -/
theorem runJob_cancel_precedence (r : RegistryState) (h : ChanHeap)
    (name : String) (sh : StoppableHandler)
    (query : List (String × List String)) (headerSig : String)
    (uuid : Option String) (running2 : RunningTables) (h2 : ChanHeap)
    (b : Bool)
    (hexec : sh (firstValues query) (chooseSig headerSig uuid) h.next
        (trackStoppable r.running name (chooseSig headerSig uuid)
          (some h.next))
        (allocChan h) = (running2, h2, .ret b)) :
    (runJob r h ⟨name, none, some sh⟩ query headerSig uuid).2.2 =
      some (if isClosedChan h2 h.next then INTERRUPT
        else if b then SUCCESS else FAILURE) := by
  simp only [runJob]
  rw [hexec]
  by_cases hc : isClosedChan h2 h.next <;> simp [hc]

/-- Witness for C1: a cancellable invocation whose quit channel was closed
while it ran reports INTERRUPT even though the handler returned true. -/
theorem runJob_cancel_precedence_witness :
    (runJob emptyRegistry emptyHeap ⟨"loop", none, some sampleClosing⟩
        [] "" none).2.2 = some INTERRUPT := by
  have h := runJob_cancel_precedence emptyRegistry emptyHeap "loop"
    sampleClosing [] "" none
    (trackStoppable emptyRegistry.running "loop" (chooseSig "" none)
      (some emptyHeap.next))
    ⟨(allocChan emptyHeap).next, emptyHeap.next :: (allocChan emptyHeap).closed⟩
    true rfl
  exact h.trans (by decide)

/-- C2: for every cancellable invocation, the run-signature entry is present
in the run table handed to the handler (insertion happens before the call),
and after runJob completes — whatever the handler did: return true, return
false, return after cancellation, or panic — the signature is absent from
the run table and a subsequent stopSpecific on it reports not-found. -/
theorem runJob_track_untrack (r : RegistryState) (h : ChanHeap)
    (name : String) (sh : StoppableHandler)
    (query : List (String × List String)) (headerSig : String)
    (uuid : Option String) (hh : ChanHeap)
    (htable : (runningMap r.running name).isSome = true) :
    lookupRun (trackStoppable r.running name (chooseSig headerSig uuid)
        (some h.next)) name (chooseSig headerSig uuid) = some h.next
    ∧ lookupRun (runJob r h ⟨name, none, some sh⟩ query headerSig
        uuid).1.running name (chooseSig headerSig uuid) = none
    ∧ (stopSpecific (runJob r h ⟨name, none, some sh⟩ query headerSig
        uuid).1.running hh name (chooseSig headerSig uuid)).2.2 = false := by
  have hsig : chooseSig headerSig uuid ≠ "" := chooseSig_ne_empty _ _
  obtain ⟨table, heq⟩ := Option.isSome_iff_exists.mp htable
  have key : (runJob r h ⟨name, none, some sh⟩ query headerSig
      uuid).1.running =
      untrackStoppable (sh (firstValues query) (chooseSig headerSig uuid)
        h.next
        (trackStoppable r.running name (chooseSig headerSig uuid)
          (some h.next))
        (allocChan h)).1 name (chooseSig headerSig uuid) := by
    simp only [runJob]
    rcases hres : sh (firstValues query) (chooseSig headerSig uuid) h.next
        (trackStoppable r.running name (chooseSig headerSig uuid)
          (some h.next))
        (allocChan h) with ⟨running2, h2, res⟩
    cases res with
    | panicked => simp
    | ret b => by_cases hc : isClosedChan h2 h.next <;> simp [hc]
  have habs : lookupRun (runJob r h ⟨name, none, some sh⟩ query headerSig
      uuid).1.running name (chooseSig headerSig uuid) = none := by
    rw [key]
    exact lookupRun_untrack_self _ _ _ hsig
  refine ⟨?_, habs, stopSpecific_not_found _ _ _ _ habs⟩
  have heq' : lookupAssoc r.running name = some table := heq
  simp [trackStoppable, hsig, lookupRun, runningMap, heq',
    lookupAssoc_storeAssoc_self]

/-- Witness for C2: on a registry holding a registered stoppable job, the
tracked entry is visible before the call and gone after runJob returns. -/
theorem runJob_track_untrack_witness :
    ((runningMap (addStoppableJob emptyRegistry "loop"
        (some sampleStoppable)).1.running "loop").isSome = true)
    ∧ lookupRun (runJob (addStoppableJob emptyRegistry "loop"
        (some sampleStoppable)).1 emptyHeap ⟨"loop", none, some sampleStoppable⟩
        [] "" none).1.running "loop" (chooseSig "" none) = none :=
  ⟨rfl,
    (runJob_track_untrack (addStoppableJob emptyRegistry "loop"
      (some sampleStoppable)).1 emptyHeap "loop" sampleStoppable [] "" none
      emptyHeap rfl).2.1⟩

/-- C5: a stop request resolving to a job that is not cancellable answers
FAILURE and leaves the registry and channel heap untouched; stopJob is a
total function, so no panic is possible. -/
theorem stopJob_not_stoppable (r : RegistryState) (h : ChanHeap)
    (j : NotifyJob) (stopSig : String) (hplain : j.stoppable = none) :
    stopJob r h (some j) stopSig = (r, h, FAILURE) := by
  simp [stopJob, isStoppable, hplain]

/-- Witness for C5: stopping a registered plain job fails. -/
theorem stopJob_not_stoppable_witness :
    stopJob emptyRegistry emptyHeap
      (some ⟨"echo", some (sampleRet true), none⟩) "" =
      (emptyRegistry, emptyHeap, FAILURE) :=
  stopJob_not_stoppable _ _ _ _ rfl

/-- C7: safeCloseQuit on a nil or already-closed handle performs no close
and returns false; it never reaches the panicking primitive close (the
faithful safeCloseQuitP is total and agrees with the pure version), and a
second close of the same handle is a no-op, so a handle is observably
closed at most once across stopSpecific, stopAll and repeated calls. -/
theorem safeCloseQuit_idempotent (h : ChanHeap) (c : Nat) (q : Option Nat) :
    safeCloseQuitP none h = some (h, false)
    ∧ (isClosedChan h c = true → safeCloseQuitP (some c) h = some (h, false))
    ∧ (safeCloseQuitP q h).isSome = true
    ∧ safeCloseQuitP q h = some (safeCloseQuit q h)
    ∧ safeCloseQuit (some c) ((safeCloseQuit (some c) h).1) =
        ((safeCloseQuit (some c) h).1, false) := by
  refine ⟨rfl, ?_, ?_, ?_, ?_⟩
  · intro hc
    simp [safeCloseQuitP, hc]
  · cases q with
    | none => rfl
    | some c' =>
      by_cases hc' : isClosedChan h c' <;>
        simp [safeCloseQuitP, closeChanP, hc']
  · cases q with
    | none => rfl
    | some c' =>
      by_cases hc' : isClosedChan h c' <;>
        simp [safeCloseQuitP, closeChanP, safeCloseQuit, hc']
  · by_cases hc : isClosedChan h c
    · simp [safeCloseQuit, hc]
    · have : isClosedChan { h with closed := c :: h.closed } c = true := by
        simp [isClosedChan]
      simp [safeCloseQuit, hc, this]

/-- Witness for C7: closing an already-closed handle is a no-op returning
false and does not panic. -/
theorem safeCloseQuit_idempotent_witness :
    isClosedChan ⟨1, [0]⟩ 0 = true
    ∧ safeCloseQuitP (some 0) ⟨1, [0]⟩ = some (⟨1, [0]⟩, false) :=
  ⟨by decide, (safeCloseQuit_idempotent ⟨1, [0]⟩ 0 (some 0)).2.1 (by decide)⟩

/-- C3 counterexample: an unknown job name makes the server write the
literal body not exist, and the client Run returns that body verbatim to
its caller, so the token reaching the caller is none of the three Result
members — the claim that the lookup miss surfaces as the FAILURE token is
false on the code. -/
theorem serveHTTP_unknown_counterexample :
    (serveHTTP emptyRegistry emptyHeap "/missing" false "" "" [] none).2.2 =
      some "not exist"
    ∧ (clientRun (some ⟨"missing", "", [], false, ""⟩)
        ⟨some "7f", .networkFirst (.ok "not exist")⟩).result = "not exist"
    ∧ "not exist" ≠ SUCCESS ∧ "not exist" ≠ FAILURE
    ∧ "not exist" ≠ INTERRUPT := by
  exact ⟨rfl, rfl, by decide, by decide, by decide⟩

/-- C3 amended: on a lookup miss the server answers the literal body not
exist without crashing and without touching any state; the client Run
forwards that body verbatim to its caller, and the CLI layer — like for
every token other than SUCCESS and INTERRUPT — reports Execution Failure
with a nonzero exit. -/
theorem serveHTTP_unknown_token (r : RegistryState) (h : ChanHeap)
    (path : String) (stopFlag : Bool) (stopSig headerSig : String)
    (query : List (String × List String)) (uuid : Option String)
    (t : Task) (uuid2 : Option String) (vs : List (String × List String))
    (hmiss : getJob r (stripLeadingSlash path) = none)
    (hname : t.Name ≠ "") (hurl : buildURLQuery t = .ok vs) :
    serveHTTP r h path stopFlag stopSig headerSig query uuid =
      (r, h, some "not exist")
    ∧ (clientRun (some t) ⟨uuid2, .networkFirst (.ok "not exist")⟩).result =
        "not exist"
    ∧ cmdReport "not exist" = ("Execution Failure", true) := by
  refine ⟨?_, ?_, by decide⟩
  · simp [serveHTTP, hmiss]
  · simp [clientRun, hname, hurl]

/-- Witness for the amended C3. -/
theorem serveHTTP_unknown_token_witness :
    serveHTTP emptyRegistry emptyHeap "/missing" false "" "" [] none =
      (emptyRegistry, emptyHeap, some "not exist") :=
  (serveHTTP_unknown_token emptyRegistry emptyHeap "/missing" false "" ""
    [] none ⟨"missing", "", [], false, ""⟩ (some "7f") [] rfl (by decide)
    rfl).1

/-- C4 counterexample: registering a stoppable job under a name already
held by a plain job fails with the duplicate error, yet it mutates
registry-owned state: an empty run table is allocated for the name before
the duplicate check, so the run-table map differs afterwards. -/
theorem addStoppableJob_duplicate_counterexample :
    (addStoppableJob (addJob emptyRegistry "a" (some (sampleRet true))).1
        "a" (some sampleStoppable)).2 = some "the job is already exist"
    ∧ (addStoppableJob (addJob emptyRegistry "a" (some (sampleRet true))).1
        "a" (some sampleStoppable)).1.running ≠
        (addJob emptyRegistry "a" (some (sampleRet true))).1.running := by
  exact ⟨rfl, by decide⟩

theorem ensureRunningMap_jobs (r : RegistryState) (name : String) :
    (ensureRunningMap r name).jobs = r.jobs := by
  unfold ensureRunningMap
  split <;> rfl

/-- C4 amended: a register call (plain or stoppable) whose name is already
present returns an error and leaves the jobs map unchanged, so the
original handler for that name remains active; AddJob leaves the whole
registry unchanged, but AddStoppableJob may still have allocated an empty
run table for the name, so run-table state is not necessarily preserved. -/
theorem register_duplicate_keeps_jobs (r : RegistryState) (name : String)
    (ph : PlainHandler) (sh : StoppableHandler)
    (hdup : containsKey r.jobs name = true) :
    (addJob r name (some ph)).1 = r
    ∧ (addJob r name (some ph)).2.isSome = true
    ∧ (addStoppableJob r name (some sh)).1.jobs = r.jobs
    ∧ (addStoppableJob r name (some sh)).2.isSome = true
    ∧ getJob (addStoppableJob r name (some sh)).1 name = getJob r name := by
  have hdup1 : containsKey (ensureRunningMap r name).jobs name = true := by
    rw [ensureRunningMap_jobs]
    exact hdup
  by_cases hb : isBlankName name
  · refine ⟨?_, ?_, ?_, ?_, ?_⟩ <;>
      simp [addJob, addStoppableJob, registerJob, hb, getJob,
        ensureRunningMap_jobs]
  · refine ⟨?_, ?_, ?_, ?_, ?_⟩ <;>
      simp [addJob, addStoppableJob, registerJob, hb, hdup, hdup1, getJob,
        ensureRunningMap_jobs]

/-- Witness for the amended C4: re-registering the name echo fails and the
jobs map is unchanged. -/
theorem register_duplicate_keeps_jobs_witness :
    containsKey (addJob emptyRegistry "echo"
        (some (sampleRet true))).1.jobs "echo" = true
    ∧ (addJob (addJob emptyRegistry "echo" (some (sampleRet true))).1 "echo"
        (some (sampleRet false))).1 =
        (addJob emptyRegistry "echo" (some (sampleRet true))).1 :=
  ⟨rfl,
    (register_duplicate_keeps_jobs
      (addJob emptyRegistry "echo" (some (sampleRet true))).1 "echo"
      (sampleRet false) sampleStoppable rfl).1⟩

/-- C6: a stop request with no target signature on a cancellable job runs
stopAll: every tracked entry of that job is removed and its channel
signalled, and the request answers SUCCESS exactly when the run table was
nonempty (given the reachable-state invariant that tracked channels are
open), FAILURE when it was empty. -/
theorem stopJob_stopAll_semantics (r : RegistryState) (h : ChanHeap)
    (j : NotifyJob) (table : List (String × Nat))
    (hstop : j.stoppable.isSome = true)
    (htab : runningMap r.running j.name = some table)
    (hopen : ∀ q ∈ table.map Prod.snd, isClosedChan h q = false) :
    (stopJob r h (some j) "").2.2 =
      (if table.isEmpty then FAILURE else SUCCESS)
    ∧ runningMap (stopJob r h (some j) "").1.running j.name = some []
    ∧ ∀ q ∈ table.map Prod.snd,
        isClosedChan (stopJob r h (some j) "").2.1 q = true := by
  have hsa : stopAll r.running h j.name =
      (storeAssoc r.running j.name [],
        (table.foldl stopAllStep (h, false)).1,
        (table.foldl stopAllStep (h, false)).2) := by
    simp only [stopAll, htab]
  have hjob : stopJob r h (some j) "" =
      ({ r with running := storeAssoc r.running j.name [] },
        (table.foldl stopAllStep (h, false)).1,
        if (table.foldl stopAllStep (h, false)).2 then SUCCESS
        else FAILURE) := by
    simp [stopJob, isStoppable, hstop, hsa]
  refine ⟨?_, ?_, ?_⟩
  · rw [hjob]
    rw [stopAllFold_flag table h hopen]
    cases hemp : table.isEmpty <;> simp [hemp]
  · rw [hjob]
    simp [runningMap, lookupAssoc_storeAssoc_self]
  · intro q hq
    rw [hjob]
    exact stopAllFold_closes table h false q hq

/-- Witness for C6: stopping all runs of a job with one tracked open run
answers SUCCESS, empties the table and closes the tracked channel. -/
theorem stopJob_stopAll_semantics_witness :
    (stopJob ⟨[("loop", ⟨"loop", none, some sampleStoppable⟩)],
        [("loop", [("sig1", 0)])]⟩ ⟨1, []⟩
        (some ⟨"loop", none, some sampleStoppable⟩) "").2.2 = SUCCESS := by
  have h := (stopJob_stopAll_semantics
    ⟨[("loop", ⟨"loop", none, some sampleStoppable⟩)],
      [("loop", [("sig1", 0)])]⟩ ⟨1, []⟩
    ⟨"loop", none, some sampleStoppable⟩ [("sig1", 0)] rfl rfl
    (by decide)).1
  exact h.trans (by decide)

/-- C8: in the queryString merge the structured parameters win on every key
collision — a key present in the structured values keeps its structured
value through the legacy overlay — and the merged set for Args id=1&x=9
with Params id:2 is exactly id=2, x=9. -/
theorem queryString_structured_wins (ps : List (String × String))
    (parsed : List (String × List String)) (k : String)
    (hk : containsKey (valuesOfParams ps) k = true) :
    lookupAssoc (mergeParsed (valuesOfParams ps) parsed) k =
      lookupAssoc (valuesOfParams ps) k
    ∧ buildURLQuery ⟨"job", "id=1&x=9", [("id", "2")], false, ""⟩ =
        .ok [("id", ["2"]), ("x", ["9"])] :=
  ⟨lookupAssoc_mergeParsed _ _ _ hk, rfl⟩

/-- Witness for C8: the structured binding of key id survives the overlay
of a legacy key. -/
theorem queryString_structured_wins_witness :
    containsKey (valuesOfParams [("id", "2")]) "id" = true
    ∧ lookupAssoc (mergeParsed (valuesOfParams [("id", "2")])
        [("x", ["9"])]) "id" = some ["2"] := by
  refine ⟨by decide, ?_⟩
  have h := (queryString_structured_wins [("id", "2")] [("x", ["9"])] "id"
    (by decide)).1
  exact h.trans (by decide)

/-- C9: in the race inside Run, a network completion first returns the
response body as the result with no stop call, while a signal first
returns INTERRUPT unconditionally and fires the best-effort stop call
exactly when this was not a stop request and a run-signature was
generated. -/
theorem clientRun_signal_race (t : Task) (uuid2 : Option String)
    (body : String) (vs : List (String × List String))
    (hname : t.Name ≠ "") (hurl : buildURLQuery t = .ok vs) :
    clientRun (some t) ⟨uuid2, .networkFirst (.ok body)⟩ =
      ⟨body, true, false⟩
    ∧ clientRun (some t) ⟨uuid2, .signalFirst⟩ =
        ⟨INTERRUPT, true, !t.Stop && uuid2.getD "" ≠ ""⟩ := by
  constructor <;> simp [clientRun, hname, hurl]

/-- Witness for C9: with a signal first, a non-stop task with a generated
signature returns INTERRUPT and fires the stop call. -/
theorem clientRun_signal_race_witness :
    clientRun (some ⟨"j", "", [], false, ""⟩) ⟨some "u", .signalFirst⟩ =
      ⟨INTERRUPT, true, true⟩ := by
  have h := (clientRun_signal_race ⟨"j", "", [], false, ""⟩ (some "u")
    "ignored" [] (by decide) rfl).2
  exact h.trans (by decide)

/-- C10: a non-nil task with a non-empty name whose legacy Args string is
rejected by ParseQuery makes Run return FAILURE immediately: no network
request is issued and no stop call fires, whatever the race oracle says. -/
theorem clientRun_invalid_args (t : Task) (env : RunEnv) (e : String)
    (hname : t.Name ≠ "")
    (herr : parseQuery (dropQMark t.Args) = .error e) :
    clientRun (some t) env = ⟨FAILURE, false, false⟩ := by
  have hraw : dropQMark t.Args ≠ "" := by
    intro hr
    rw [hr] at herr
    have hok : parseQuery "" = .ok [] := rfl
    rw [hok] at herr
    exact Except.noConfusion herr
  by_cases hb : isBlankName t.Name
  · simp [clientRun, hname, buildURLQuery, hb]
  · have hurl : buildURLQuery t = .error ("invalid args: " ++ e) := by
      simp [buildURLQuery, hb, queryValues, hraw, herr]
    simp [clientRun, hname, hurl]

/-- Witness for C10: Args %zz is rejected and Run fails with no network
activity even though the network oracle would have answered success. -/
theorem clientRun_invalid_args_witness :
    clientRun (some ⟨"j", "%zz", [], false, ""⟩)
      ⟨some "u", .networkFirst (.ok "success")⟩ = ⟨FAILURE, false, false⟩ :=
  clientRun_invalid_args _ _ "invalid URL escape" (by decide) rfl

end Saturn
